import Mathlib

/-!
Verification of the build-lambda-zip tool and two library files of the
aws-lambda-go repository, against its natural-language specification.

The Go sources are shallowly embedded: file contents and zip entry data are
modelled as `String` (abstract byte sequences), the file system as a partial
map `String → Option String`, and the zip writer as the list of entries it
has emitted to the underlying stream.  Helpers of Go's standard library that
the code relies on (`archive/zip` mode encoding, `path/filepath.Base`,
`os/exec` environment deduplication, `strings.Split` / `strings.Join`) are
modelled by Lean functions mirroring their documented behaviour.
-/

namespace BuildLambdaZip

/-! ## Model of the zip container (archive/zip) as used by the tool -/

/-- Compression methods of archive/zip that occur here: `Store = 0`, `Deflate = 8`. -/
inductive ZipMethod where
  | store
  | deflate
deriving DecidableEq, Repr, BEq

/-- Value of `os.ModeSymlink` (bit 27 of a Go `os.FileMode`). -/
def ModeSymlink : Nat := 2 ^ 27

/-- Value of `os.ModeDir` (bit 31 of a Go `os.FileMode`). -/
def ModeDir : Nat := 2 ^ 31

/-- Unix file-type field mask `S_IFMT`. -/
def s_IFMT : Nat := 0xF000

/-- Unix file-type bits `S_IFLNK` (symbolic link). -/
def s_IFLNK : Nat := 0xA000

/-- Unix file-type bits `S_IFREG` (regular file). -/
def s_IFREG : Nat := 0x8000

/-- Creator code for Unix in a zip header's `CreatorVersion` high byte. -/
def creatorUnix : Nat := 3

/-- Models archive/zip `fileModeToUnixMode` for the modes arising here:
a mode whose only type bit can be the symlink bit is mapped to `S_IFLNK`
or `S_IFREG` plus its permission bits. -/
def fileModeToUnixMode (mode : Nat) : Nat :=
  (if mode &&& ModeSymlink ≠ 0 then s_IFLNK else s_IFREG) ||| (mode &&& 0o777)

/-- Models archive/zip `unixModeToFileMode` for the file types arising here:
permission bits are kept and the symlink type maps back to `os.ModeSymlink`. -/
def unixModeToFileMode (m : Nat) : Nat :=
  (m &&& 0o777) ||| (if m &&& s_IFMT = s_IFLNK then ModeSymlink else 0)

/-- Models archive/zip `msdosModeToFileMode`: directories become `ModeDir ||| 0o777`,
plain files `0o666`, and the read-only attribute clears the write bits. -/
def msdosModeToFileMode (m : Nat) : Nat :=
  let mode := if m &&& 0x10 ≠ 0 then ModeDir ||| 0o777 else 0o666
  if m &&& 0x1 ≠ 0 then mode &&& (2 ^ 32 - 1 - 0o222) else mode

/-- The fields of a `zip.FileHeader` that the tool sets or that determine
the entry's mode. -/
structure FileHeader where
  name : String
  method : ZipMethod
  creatorVersion : Nat
  externalAttrs : Nat
deriving DecidableEq, Repr

/-- Models `zip.FileHeader.SetMode`: marks the creator as Unix and stores the
Unix encoding of the given `os.FileMode` in the upper 16 bits of the external
attributes. -/
def FileHeader.setMode (h : FileHeader) (mode : Nat) : FileHeader :=
  { h with
    creatorVersion := h.creatorVersion &&& 0xff ||| creatorUnix <<< 8
    externalAttrs := fileModeToUnixMode mode <<< 16 }

/-- Models `zip.FileHeader.Mode`: decodes the entry's `os.FileMode` from the
creator-specific external attributes, and forces the directory bit for names
ending in a slash. -/
def FileHeader.mode (h : FileHeader) : Nat :=
  let m :=
    if h.creatorVersion >>> 8 = creatorUnix ∨ h.creatorVersion >>> 8 = 19 then
      unixModeToFileMode (h.externalAttrs >>> 16)
    else if h.creatorVersion >>> 8 = 0 ∨ h.creatorVersion >>> 8 = 11 ∨
        h.creatorVersion >>> 8 = 14 then
      msdosModeToFileMode h.externalAttrs
    else 0
  if h.name.data.getLast? = some '/' then m ||| ModeDir else m

/-- An entry emitted to the archive: its header and the bytes written for it
(for a symbolic-link entry the bytes are the link target). -/
structure ZipEntry where
  header : FileHeader
  data : String
deriving DecidableEq, Repr

/-- An entry is a symbolic link when the symlink bit of its decoded mode is set. -/
def ZipEntry.isSymlink (e : ZipEntry) : Bool := e.header.mode &&& ModeSymlink != 0

/-- Unfolding lemma for `ZipEntry.isSymlink` on a literal entry. -/
lemma ZipEntry.isSymlink_mk (h : FileHeader) (d : String) :
    ZipEntry.isSymlink ⟨h, d⟩ = (h.mode &&& ModeSymlink != 0) := rfl

/-- Projection lemma for the header of a literal entry. -/
lemma ZipEntry.header_mk (h : FileHeader) (d : String) :
    (⟨h, d⟩ : ZipEntry).header = h := rfl

/-- Entry produced by `zip.Writer.Create`, which uses a header holding only the
name and the Deflate method. -/
def createEntry (name : String) (data : String) : ZipEntry :=
  ⟨{ name := name, method := .deflate, creatorVersion := 0, externalAttrs := 0 }, data⟩

/-! ## The tool's own functions -/

/-- Models `path/filepath.Base` on slash-separated paths: empty path gives ".",
trailing slashes are dropped, an all-slash path gives "/", otherwise the last
path component is returned. -/
def filepathBase (p : String) : String :=
  if p = "" then "."
  else
    let cs := p.data.reverse.dropWhile fun c => c = '/'
    if cs = [] then "/"
    else ⟨(cs.takeWhile fun c => c ≠ '/').reverse⟩

/-- Embeds `writeExe`: when the name inside the zip is not "bootstrap", first a
symbolic-link entry named "bootstrap" with mode `0755 ||| os.ModeSymlink` whose
data is the in-zip name; then the executable entry with Unix creator version
`3 <<< 8`, external attributes `0o777 <<< 16` and Deflate compression.
The result is the list of entries written. -/
def writeExe (pathInZip : String) (data : String) : List ZipEntry :=
  let linkEntries :=
    if pathInZip ≠ "bootstrap" then
      let h : FileHeader :=
        { name := "bootstrap", method := .deflate, creatorVersion := 0, externalAttrs := 0 }
      [⟨h.setMode (0o755 ||| ModeSymlink), pathInZip⟩]
    else []
  linkEntries ++
    [⟨{ name := pathInZip, method := .deflate, creatorVersion := 3 <<< 8,
        externalAttrs := 0o777 <<< 16 }, data⟩]

/-- A file system: maps a path to its contents when the path is readable. -/
abbrev FS := String → Option String

/-- Embeds the auxiliary-file loop of `compressExeAndArgs`.  For each path the
code first calls `zipWriter.Create` and only then reads the file; when the read
fails, the already-created entry stays in the archive with no bytes and the
loop stops with the read error.  The result is the list of entries written to
the underlying stream (the deferred `zipWriter.Close` flushes them even on the
error path) together with the error, if any. -/
def writeAuxFiles (fs : FS) : List String → List ZipEntry × Option String
  | [] => ([], none)
  | a :: rest =>
    match fs a with
    | none => ([createEntry a ""], some ("read " ++ a))
    | some d =>
      (createEntry a d :: (writeAuxFiles fs rest).1, (writeAuxFiles fs rest).2)

/-- Embeds `compressExeAndArgs`: reads the executable (a failure there aborts
before any entry is written), writes it via `writeExe` under its base name,
then writes each auxiliary file.  Returns the entries emitted to the
underlying stream and the first error, if any. -/
def compressExeAndArgs (fs : FS) (exePath : String) (args : List String) :
    List ZipEntry × Option String :=
  match fs exePath with
  | none => ([], some ("read " ++ exePath))
  | some data =>
    (writeExe (filepathBase exePath) data ++ (writeAuxFiles fs args).1,
      (writeAuxFiles fs args).2)

/-- Outcome of `compressExeAndArgsToFile` on the named output path: whether the
file exists afterwards, the entries it holds, and the returned error. -/
structure FileOutcome where
  created : Bool
  contents : List ZipEntry
  error : Option String
deriving DecidableEq, Repr

/-- Embeds `compressExeAndArgsToFile`: `os.Create` makes (or truncates) the
output file, the deferred close leaves it in place on every return path, and
the zip writer's entries end up in it whether or not the build failed. -/
def compressExeAndArgsToFile (fs : FS) (exePath : String) (args : List String) :
    FileOutcome :=
  { created := true
    contents := (compressExeAndArgs fs exePath args).1
    error := (compressExeAndArgs fs exePath args).2 }

/-! ## Helper lemmas about the archive builder -/

/-- The executable entry written by `writeExe` is never a symbolic link:
its external attributes carry no file-type bits, so the decoded mode has no
symlink bit whatever the entry's name is. -/
lemma exe_entry_not_symlink (nm d : String) :
    ZipEntry.isSymlink
      ⟨{ name := nm, method := .deflate, creatorVersion := 3 <<< 8,
         externalAttrs := 0o777 <<< 16 }, d⟩ = false := by
  simp only [ZipEntry.isSymlink, FileHeader.mode]
  split <;> rfl

/-- An entry made by `zip.Writer.Create` is never a symbolic link (unless its
name ends in a slash it decodes to plain `0o666`, and the directory bit is not
the symlink bit). -/
lemma create_entry_not_symlink (nm d : String) :
    (createEntry nm d).isSymlink = false := by
  simp only [createEntry, ZipEntry.isSymlink, FileHeader.mode]
  split <;> rfl

/-- The auxiliary-file loop reports an error exactly when some auxiliary path
is unreadable. -/
lemma writeAuxFiles_error_iff (fs : FS) (args : List String) :
    (writeAuxFiles fs args).2.isSome = true ↔ ∃ a ∈ args, fs a = none := by
  induction args with
  | nil => simp [writeAuxFiles]
  | cons a rest ih =>
    cases hfs : fs a with
    | none => simp [writeAuxFiles, hfs]
    | some d =>
      simp only [writeAuxFiles, hfs, List.mem_cons, exists_eq_or_imp]
      rw [ih]
      simp [hfs]

/-- Every entry written by the auxiliary-file loop uses Deflate. -/
lemma writeAuxFiles_all_deflate (fs : FS) (args : List String) :
    ((writeAuxFiles fs args).1.all fun e => e.header.method == ZipMethod.deflate) = true := by
  induction args with
  | nil => rfl
  | cons a rest ih =>
    cases hfs : fs a with
    | none =>
      simp only [writeAuxFiles, hfs]
      rfl
    | some d =>
      simp only [writeAuxFiles, hfs, List.all_cons, ih, Bool.and_true]
      rfl

/-! ## Claim theorems about the archive builder -/

/-- C1: for every executable whose base name differs from "bootstrap" and with
no auxiliary files, the build succeeds and the archive holds exactly two
entries: a symbolic link named "bootstrap" whose stored target is the
executable's base name, and a non-link entry named with the base name holding
the executable's bytes. -/
theorem archive_two_entries_of_base_ne_bootstrap (fs : FS) (exePath data : String)
    (hread : fs exePath = some data) (hname : filepathBase exePath ≠ "bootstrap") :
    (compressExeAndArgs fs exePath []).2 = none ∧
    ∃ l e, (compressExeAndArgs fs exePath []).1 = [l, e] ∧
      l.isSymlink = true ∧ l.header.name = "bootstrap" ∧ l.data = filepathBase exePath ∧
      e.isSymlink = false ∧ e.header.name = filepathBase exePath ∧ e.data = data := by
  have hc : compressExeAndArgs fs exePath [] =
      (writeExe (filepathBase exePath) data, none) := by
    simp [compressExeAndArgs, hread, writeAuxFiles]
  have hw : writeExe (filepathBase exePath) data =
      [⟨FileHeader.setMode
          { name := "bootstrap", method := .deflate, creatorVersion := 0, externalAttrs := 0 }
          (0o755 ||| ModeSymlink), filepathBase exePath⟩,
       ⟨{ name := filepathBase exePath, method := .deflate, creatorVersion := 3 <<< 8,
          externalAttrs := 0o777 <<< 16 }, data⟩] := by
    simp [writeExe, hname]
  rw [hc, hw]
  refine ⟨rfl, _, _, rfl, ?_, rfl, rfl, exe_entry_not_symlink _ _, rfl, rfl⟩
  rw [ZipEntry.isSymlink_mk]
  decide

/-- C1 witness: at the concrete input "handler", readable with bytes "ELF",
both hypotheses hold and the two-entry conclusion follows. -/
theorem archive_two_entries_witness :
    (fun p => if p = "handler" then some "ELF" else none : FS) "handler" = some "ELF" ∧
    filepathBase "handler" ≠ "bootstrap" ∧
    ((compressExeAndArgs (fun p => if p = "handler" then some "ELF" else none) "handler" []).2
        = none ∧
      ∃ l e,
        (compressExeAndArgs (fun p => if p = "handler" then some "ELF" else none)
            "handler" []).1 = [l, e] ∧
        l.isSymlink = true ∧ l.header.name = "bootstrap" ∧ l.data = filepathBase "handler" ∧
        e.isSymlink = false ∧ e.header.name = filepathBase "handler" ∧ e.data = "ELF") :=
  ⟨rfl, by decide,
    archive_two_entries_of_base_ne_bootstrap _ "handler" "ELF" rfl (by decide)⟩

/-- C2: for every executable whose base name equals "bootstrap" and with no
auxiliary files, the build succeeds, the archive holds exactly one entry (the
executable under the name "bootstrap"), and no entry is a symbolic link. -/
theorem archive_single_entry_of_base_eq_bootstrap (fs : FS) (exePath data : String)
    (hread : fs exePath = some data) (hname : filepathBase exePath = "bootstrap") :
    (compressExeAndArgs fs exePath []).2 = none ∧
    ∃ e, (compressExeAndArgs fs exePath []).1 = [e] ∧
      e.header.name = "bootstrap" ∧ e.data = data ∧
      ∀ x ∈ (compressExeAndArgs fs exePath []).1, x.isSymlink = false := by
  have hc : compressExeAndArgs fs exePath [] =
      (writeExe "bootstrap" data, none) := by
    simp [compressExeAndArgs, hread, writeAuxFiles, hname]
  have hw : writeExe "bootstrap" data =
      [⟨{ name := "bootstrap", method := .deflate, creatorVersion := 3 <<< 8,
          externalAttrs := 0o777 <<< 16 }, data⟩] := by
    simp [writeExe]
  rw [hc, hw]
  refine ⟨rfl, _, rfl, rfl, rfl, ?_⟩
  intro x hx
  rw [List.mem_singleton] at hx
  rw [hx]
  exact exe_entry_not_symlink _ _

/-- C2 witness: at the concrete input "bootstrap", readable with bytes "ELF",
both hypotheses hold and the single-entry conclusion follows. -/
theorem archive_single_entry_witness :
    (fun p => if p = "bootstrap" then some "ELF" else none : FS) "bootstrap" = some "ELF" ∧
    filepathBase "bootstrap" = "bootstrap" ∧
    ((compressExeAndArgs (fun p => if p = "bootstrap" then some "ELF" else none)
        "bootstrap" []).2 = none ∧
      ∃ e,
        (compressExeAndArgs (fun p => if p = "bootstrap" then some "ELF" else none)
            "bootstrap" []).1 = [e] ∧
        e.header.name = "bootstrap" ∧ e.data = "ELF" ∧
        ∀ x ∈ (compressExeAndArgs (fun p => if p = "bootstrap" then some "ELF" else none)
            "bootstrap" []).1, x.isSymlink = false) :=
  ⟨rfl, by decide,
    archive_single_entry_of_base_eq_bootstrap _ "bootstrap" "ELF" rfl (by decide)⟩

/-- C3 counterexample: for the executable name "handler" the builder adds a
symbolic-link entry, but its mode is `0o755` combined with the symlink bit,
which differs from the claimed all-classes `0o777` combined with the symlink
bit (group and other lack the write bit). -/
theorem link_mode_counterexample :
    ((writeExe "handler" "ELF").map fun e => (e.isSymlink, e.header.mode)) =
      [(true, 0o755 ||| ModeSymlink), (false, 0o777)] ∧
    0o755 ||| ModeSymlink ≠ 0o777 ||| ModeSymlink := by
  constructor
  · rfl
  · decide

/-- C3 amended: whenever the builder adds a symbolic-link entry (the
executable's base name differs from "bootstrap"), that entry's mode is
owner read/write/execute with group and other read/execute (`0o755`),
combined with the symbolic-link mode bit. -/
theorem link_mode_0755_symlink (pathInZip data : String) (h : pathInZip ≠ "bootstrap") :
    (∃ e ∈ writeExe pathInZip data, e.isSymlink = true) ∧
    ∀ e ∈ writeExe pathInZip data, e.isSymlink = true →
      e.header.mode = 0o755 ||| ModeSymlink := by
  have hw : writeExe pathInZip data =
      [⟨FileHeader.setMode
          { name := "bootstrap", method := .deflate, creatorVersion := 0, externalAttrs := 0 }
          (0o755 ||| ModeSymlink), pathInZip⟩,
       ⟨{ name := pathInZip, method := .deflate, creatorVersion := 3 <<< 8,
          externalAttrs := 0o777 <<< 16 }, data⟩] := by
    simp [writeExe, h]
  rw [hw]
  refine ⟨⟨_, List.mem_cons_self _ _, ?_⟩, ?_⟩
  · rw [ZipEntry.isSymlink_mk]
    decide
  intro e he hsym
  rcases List.mem_cons.mp he with h1 | h2
  · rw [h1, ZipEntry.header_mk]
    decide
  · rw [List.mem_singleton] at h2
    rw [h2] at hsym
    rw [exe_entry_not_symlink] at hsym
    cases hsym

/-- C3 amended witness: at the concrete name "handler" the hypothesis holds
and the amended mode property follows. -/
theorem link_mode_0755_symlink_witness :
    ("handler" : String) ≠ "bootstrap" ∧
    ((∃ e ∈ writeExe "handler" "ELF", e.isSymlink = true) ∧
      ∀ e ∈ writeExe "handler" "ELF", e.isSymlink = true →
        e.header.mode = 0o755 ||| ModeSymlink) :=
  ⟨by decide, link_mode_0755_symlink "handler" "ELF" (by decide)⟩

/-- C5 counterexample: with a readable executable "handler" and an unreadable
auxiliary path "cfg", the build returns an error, yet the output file is
created and holds three entries (the link, the executable, and an empty entry
for the failed auxiliary file) — partial archive output is emitted. -/
theorem abort_partial_output_counterexample :
    ((compressExeAndArgsToFile (fun p => if p = "handler" then some "ELF" else none)
        "handler" ["cfg"]).error).isSome = true ∧
    (compressExeAndArgsToFile (fun p => if p = "handler" then some "ELF" else none)
        "handler" ["cfg"]).created = true ∧
    (compressExeAndArgsToFile (fun p => if p = "handler" then some "ELF" else none)
        "handler" ["cfg"]).contents.length = 3 := by
  refine ⟨rfl, rfl, rfl⟩

/-- C5 amended: a failing read of the executable or of any auxiliary file makes
the build return an error (and only then); the output file is created and kept
on every path; and when the executable itself is unreadable no entry at all is
written.  Entries written before a failing auxiliary read remain in the file. -/
theorem abort_on_read_failure (fs : FS) (exePath : String) (args : List String) :
    (compressExeAndArgsToFile fs exePath args).created = true ∧
    ((compressExeAndArgsToFile fs exePath args).error.isSome = true ↔
      fs exePath = none ∨ ∃ a ∈ args, fs a = none) ∧
    (fs exePath = none → (compressExeAndArgsToFile fs exePath args).contents = []) := by
  refine ⟨rfl, ?_, ?_⟩
  · cases hfs : fs exePath with
    | none => simp [compressExeAndArgsToFile, compressExeAndArgs, hfs]
    | some data =>
      simp only [compressExeAndArgsToFile, compressExeAndArgs, hfs]
      rw [writeAuxFiles_error_iff]
      simp
  · intro hfs
    simp [compressExeAndArgsToFile, compressExeAndArgs, hfs]

/-- C5 amended witness: at a file system where "handler" is unreadable, the
outcome is an error, the file is created, and no entry is written. -/
theorem abort_on_read_failure_witness :
    (compressExeAndArgsToFile (fun _ => none) "handler" ["cfg"]).created = true ∧
    ((compressExeAndArgsToFile (fun _ => none) "handler" ["cfg"]).error.isSome = true ↔
      (fun _ => none : FS) "handler" = none ∨
        ∃ a ∈ ["cfg"], (fun _ => none : FS) a = none) ∧
    ((fun _ => none : FS) "handler" = none →
      (compressExeAndArgsToFile (fun _ => none) "handler" ["cfg"]).contents = []) :=
  abort_on_read_failure (fun _ => none) "handler" ["cfg"]

/-- C8: every entry of every archive the builder emits — executable, link and
auxiliary entries alike — uses the Deflate compression method. -/
theorem all_entries_deflate (fs : FS) (exePath : String) (args : List String) :
    ((compressExeAndArgs fs exePath args).1.all
      fun e => e.header.method == ZipMethod.deflate) = true := by
  cases hfs : fs exePath with
  | none => simp [compressExeAndArgs, hfs]
  | some data =>
    simp only [compressExeAndArgs, hfs, List.all_append]
    rw [writeAuxFiles_all_deflate]
    rw [Bool.and_true]
    by_cases h : filepathBase exePath = "bootstrap"
    · simp [writeExe, h]
      rfl
    · simp [writeExe, h]
      exact ⟨rfl, rfl⟩

/-! ## Model of `goBuild`'s environment handling

`goBuild` runs the external compiler with
`cmd.Env = append([]string{"GOOS=linux", "GOARCH=amd64"}, os.Environ()...)`.
Environment entries are modelled as key/value pairs; before starting the
child, `os/exec` deduplicates the entry list, keeping for each repeated key
the value of its last occurrence (at the position of the first). -/

/-- The environment list `goBuild` hands to `exec.Command`: the two fixed
target entries prepended to the caller's environment. -/
def goBuildEnv (callerEnv : List (String × String)) : List (String × String) :=
  [("GOOS", "linux"), ("GOARCH", "amd64")] ++ callerEnv

/-- Models `os/exec.dedupEnv`: duplicates are removed in favour of later
values, each surviving value sitting at its key's first position. -/
def dedupEnv (env : List (String × String)) : List (String × String) :=
  env.foldl
    (fun out kv =>
      if out.any fun o => o.1 == kv.1 then
        out.map fun o => if o.1 == kv.1 then kv else o
      else out ++ [kv])
    []

/-- The effective environment the external compiler observes. -/
def effectiveGoBuildEnv (callerEnv : List (String × String)) : List (String × String) :=
  dedupEnv (goBuildEnv callerEnv)

/-- Environment lookup (first entry with the given key). -/
def getenv (k : String) (env : List (String × String)) : Option String :=
  (env.find? fun kv => kv.1 == k).map fun kv => kv.2

/-- C4: at the failing input — a caller environment that already binds GOOS —
the prepended override is discarded by the later-wins deduplication, so the
external compiler sees the caller's `GOOS=darwin`, not the fixed `linux`
required by the claim (and by the tool's own usage text). Unrelated variables
do pass through, and `GOARCH`, unbound by this caller, does get `amd64`. -/
theorem goos_override_lost :
    getenv "GOOS" (effectiveGoBuildEnv [("GOOS", "darwin"), ("HOME", "/root")])
        = some "darwin" ∧
    getenv "GOARCH" (effectiveGoBuildEnv [("GOOS", "darwin"), ("HOME", "/root")])
        = some "amd64" ∧
    getenv "HOME" (effectiveGoBuildEnv [("GOOS", "darwin"), ("HOME", "/root")])
        = some "/root" ∧
    some "darwin" ≠ some "linux" := by
  refine ⟨rfl, rfl, rfl, by decide⟩

/-! ## Model of `updateFunctionCode`'s polling loop

The remote service is abstracted by the data the code observes: the result of
the initial `UpdateFunctionCode` call, and the list of successive
`GetFunction` results the loop would receive.  A result is either a transport
error or a pair of `LastUpdateStatus` (a string in the SDK) and an optional
reason.  The returned list collects the status lines the loop logs, one per
iteration, before deciding whether to continue. -/

/-- SDK constant `types.LastUpdateStatusInProgress`. -/
def LastUpdateStatusInProgress : String := "InProgress"

/-- SDK constant `types.LastUpdateStatusSuccessful`. -/
def LastUpdateStatusSuccessful : String := "Successful"

/-- SDK constant `types.LastUpdateStatusFailed`. -/
def LastUpdateStatusFailed : String := "Failed"

/-- Result of one remote call: a transport error, or a status with an
optional reason string. -/
abbrev PollResponse := Except String (String × Option String)

/-- How `updateFunctionCode` ends, as seen by its caller. -/
inductive UpdateOutcome where
  | finished (terminal : String)
  | failed (e : String)
  | pending
deriving DecidableEq, Repr

/-- Embeds the `for` loop of `updateFunctionCode`: the current status and
reason are logged, then the loop ends unless the status is `InProgress`, in
which case it sleeps and re-fetches; a fetch error is returned as-is.  When
the supplied observations run out while still in progress the outcome is
`pending` (the real loop would poll again).  Returns the logged status
reports and the outcome. -/
def pollLoop (polls : List PollResponse) (status : String) (reason : Option String) :
    List (String × Option String) × UpdateOutcome :=
  if status == LastUpdateStatusInProgress then
    match polls with
    | [] => ([(status, reason)], .pending)
    | .error e :: _ => ([(status, reason)], .failed e)
    | .ok (s, r) :: rest =>
      ((status, reason) :: (pollLoop rest s r).1, (pollLoop rest s r).2)
  else ([(status, reason)], .finished status)

/-- Embeds `updateFunctionCode` from the initial update request on: a failing
request returns its error at once with no report and no polling; otherwise the
response's status and reason seed the polling loop. -/
def updateFunctionCode (initResult : PollResponse) (polls : List PollResponse) :
    List (String × Option String) × UpdateOutcome :=
  match initResult with
  | .error e => ([], .failed e)
  | .ok (s, r) => pollLoop polls s r

/-- Runs `updateFunctionCode` on an observed sequence of successful status
observations (the first being the update response, later ones `GetFunction`
results) followed by arbitrary further poll behaviour. -/
def runDeploy (obs : List (String × Option String)) (extra : List PollResponse) :
    List (String × Option String) × UpdateOutcome :=
  match obs with
  | [] => ([], .pending)
  | o :: rest => updateFunctionCode (.ok o) (rest.map Except.ok ++ extra)

/-- Unfolding lemma: a non-in-progress status ends the loop at once with no
error, whatever observations remain. -/
lemma pollLoop_not_inprogress (polls : List PollResponse) (s : String) (r : Option String)
    (h : s ≠ LastUpdateStatusInProgress) :
    pollLoop polls s r = ([(s, r)], .finished s) := by
  conv_lhs => unfold pollLoop
  rw [if_neg (by simp [h])]

/-- Unfolding lemma: an in-progress status logs one report and continues with
the next successful observation. -/
lemma pollLoop_inprogress_ok (rest : List PollResponse) (s : String) (r : Option String)
    (s' : String) (r' : Option String) (h : s = LastUpdateStatusInProgress) :
    pollLoop (Except.ok (s', r') :: rest) s r =
      ((s, r) :: (pollLoop rest s' r').1, (pollLoop rest s' r').2) := by
  conv_lhs => unfold pollLoop
  rw [if_pos (by simp [h])]

/-- The loop run from an in-progress status through in-progress observations
reaches the first terminal observation, reporting each status once, and
finishes with no error without consuming later observations. -/
lemma pollLoop_first_terminal (mids : List (String × Option String))
    (term : String × Option String) (post : List PollResponse)
    (hmids : ∀ p ∈ mids, p.1 = LastUpdateStatusInProgress)
    (hterm : term.1 ≠ LastUpdateStatusInProgress) :
    ∀ s₀ r₀, s₀ = LastUpdateStatusInProgress →
      pollLoop ((mids ++ [term]).map Except.ok ++ post) s₀ r₀ =
        ((s₀, r₀) :: (mids ++ [term]), .finished term.1) := by
  induction mids with
  | nil =>
    intro s₀ r₀ h₀
    obtain ⟨t1, t2⟩ := term
    simp only [List.nil_append, List.map_cons, List.map_nil, List.cons_append,
      List.nil_append]
    rw [pollLoop_inprogress_ok _ _ _ _ _ h₀]
    rw [pollLoop_not_inprogress _ _ _ hterm]
  | cons m ms ih =>
    intro s₀ r₀ h₀
    obtain ⟨m1, m2⟩ := m
    have hm : m1 = LastUpdateStatusInProgress := hmids _ (List.mem_cons_self _ _)
    simp only [List.cons_append, List.map_cons]
    rw [pollLoop_inprogress_ok _ _ _ _ _ h₀]
    rw [ih (fun p hp => hmids p (List.mem_cons_of_mem _ hp)) _ _ hm]

/-- C6: for every observed status sequence whose first non-in-progress status
is `term` (everything before it is in-progress), the deploy operation emits
exactly the reports up to and including `term`, consumes nothing after it,
and returns no error — whatever the terminal status is and whatever would
come later. -/
theorem poll_stops_at_first_terminal (pre : List (String × Option String))
    (term : String × Option String) (post : List PollResponse)
    (hpre : ∀ p ∈ pre, p.1 = LastUpdateStatusInProgress)
    (hterm : term.1 ≠ LastUpdateStatusInProgress) :
    runDeploy (pre ++ [term]) post = (pre ++ [term], .finished term.1) := by
  cases pre with
  | nil =>
    obtain ⟨t1, t2⟩ := term
    simp only [List.nil_append, runDeploy, updateFunctionCode, List.map_nil]
    rw [pollLoop_not_inprogress _ _ _ hterm]
  | cons p ps =>
    obtain ⟨p1, p2⟩ := p
    have hp : p1 = LastUpdateStatusInProgress := hpre _ (List.mem_cons_self _ _)
    simp only [List.cons_append, runDeploy, updateFunctionCode]
    rw [pollLoop_first_terminal ps term post
      (fun q hq => hpre q (List.mem_cons_of_mem _ hq)) hterm _ _ hp]

/-- C6 witness: with one in-progress observation followed by the terminal
failure status, the operation reports both and finishes with no error. -/
theorem poll_stops_at_first_terminal_witness :
    (LastUpdateStatusFailed ≠ LastUpdateStatusInProgress) ∧
    runDeploy [(LastUpdateStatusInProgress, none), (LastUpdateStatusFailed, none)] [] =
      ([(LastUpdateStatusInProgress, none), (LastUpdateStatusFailed, none)],
        .finished LastUpdateStatusFailed) :=
  ⟨by decide,
    poll_stops_at_first_terminal [(LastUpdateStatusInProgress, none)]
      (LastUpdateStatusFailed, none) [] (by simp) (by decide)⟩

/-- C7: for the observed sequence in-progress, in-progress, successful the
operation emits exactly three status reports — one per observed status — and
returns no error; and a failing initial update request yields the error at
once, with zero reports and no polling. -/
theorem three_reports_then_success_and_error_short_circuit :
    (∀ e polls, updateFunctionCode (Except.error e) polls = ([], .failed e)) ∧
    (∀ (r₀ r₁ r₂ : Option String) (post : List PollResponse),
      (runDeploy [(LastUpdateStatusInProgress, r₀), (LastUpdateStatusInProgress, r₁),
          (LastUpdateStatusSuccessful, r₂)] post).1.length = 3 ∧
      runDeploy [(LastUpdateStatusInProgress, r₀), (LastUpdateStatusInProgress, r₁),
          (LastUpdateStatusSuccessful, r₂)] post =
        ([(LastUpdateStatusInProgress, r₀), (LastUpdateStatusInProgress, r₁),
          (LastUpdateStatusSuccessful, r₂)], .finished LastUpdateStatusSuccessful)) := by
  refine ⟨fun e polls => rfl, fun r₀ r₁ r₂ post => ?_⟩
  have h2 : runDeploy [(LastUpdateStatusInProgress, r₀), (LastUpdateStatusInProgress, r₁),
      (LastUpdateStatusSuccessful, r₂)] post =
      ([(LastUpdateStatusInProgress, r₀), (LastUpdateStatusInProgress, r₁),
        (LastUpdateStatusSuccessful, r₂)], .finished LastUpdateStatusSuccessful) := by
    simp only [runDeploy, updateFunctionCode, List.map_cons, List.map_nil,
      List.cons_append, List.nil_append]
    rw [pollLoop_inprogress_ok _ _ _ _ _ rfl]
    rw [pollLoop_inprogress_ok _ _ _ _ _ rfl]
    rw [pollLoop_not_inprogress _ _ _ (by decide)]
  exact ⟨by rw [h2]; rfl, h2⟩

end BuildLambdaZip

namespace Messages

/-! ## Model of `lambda/messages` error conversion

`FromError` inspects a Go `error` value: `nil`, a value of type
`InvokeResponse_Error`, a pointer to one, or any other non-nil error, whose
dynamic type it names via reflection.  The reflective type is modelled by
`GoType`, and a possibly-nil error value by `Option GoError`. -/

/-- One frame of a stack trace, as carried (but never inspected) by the
message struct. -/
structure InvokeResponse_Error_StackFrame where
  Path : String
  Line : Int
  Label : String
deriving DecidableEq, Repr

/-- The `InvokeResponse_Error` message struct, with the fields `errors.go`
reads or writes; a Go struct literal zeroes the omitted fields. -/
structure InvokeResponse_Error where
  Message : String
  «Type» : String
  StackTrace : List InvokeResponse_Error_StackFrame
  ShouldExit : Bool
deriving DecidableEq, Repr

/-- A Go reflective type as `FromError` distinguishes them: a defined (named)
type, or a pointer to some element type. -/
inductive GoType where
  | named (n : String)
  | ptr (elem : GoType)
deriving DecidableEq, Repr

/-- Models `reflect.Type.Name`: a defined type's name; an unnamed type such
as a pointer has the empty name. -/
def GoType.name : GoType → String
  | .named n => n
  | .ptr _ => ""

/-- A non-nil Go `error` value, by the cases `FromError`'s type switches
test: a value of type `InvokeResponse_Error`, a pointer to one, or a value
of any other dynamic type whose `Error()` yields `msg`. -/
inductive GoError where
  | ire (v : InvokeResponse_Error)
  | ptrIre (v : InvokeResponse_Error)
  | other (t : GoType) (msg : String)
deriving DecidableEq, Repr

/-- Embeds `FromError`: nil maps to nil; an `InvokeResponse_Error` by value
or by pointer is returned as-is; any other error is wrapped with its
`Error()` text as message and its type name — a pointer dereferenced to its
element type's name — as type. -/
def FromError : Option GoError → Option InvokeResponse_Error
  | none => none
  | some (.ire v) => some v
  | some (.ptrIre v) => some v
  | some (.other t msg) =>
    some
      { Message := msg
        «Type» := match t with | .ptr e => e.name | t => t.name
        StackTrace := []
        ShouldExit := false }

/-- C9: `FromError` returns nil exactly on nil; an `InvokeResponse_Error`
given by value or by pointer comes back unchanged; and any other error is
wrapped with message equal to its `Error()` text and type equal to its
dynamic type's name, a pointer type dereferenced to its element type's
name. -/
theorem from_error_spec :
    FromError none = none ∧
    (∀ e : GoError, FromError (some e) ≠ none) ∧
    (∀ v, FromError (some (.ire v)) = some v) ∧
    (∀ v, FromError (some (.ptrIre v)) = some v) ∧
    (∀ n msg, FromError (some (.other (.named n) msg)) =
      some { Message := msg, «Type» := n, StackTrace := [], ShouldExit := false }) ∧
    (∀ t msg, FromError (some (.other (.ptr t) msg)) =
      some { Message := msg, «Type» := t.name, StackTrace := [], ShouldExit := false }) := by
  refine ⟨rfl, ?_, fun v => rfl, fun v => rfl, fun n msg => rfl, fun t msg => rfl⟩
  intro e
  cases e <;> simp [FromError]

end Messages

namespace Events

/-! ## Model of the function-URL header and query-parameter codecs

`functionURLHeaders` and `functionURLValues` marshal a map from names to
string lists by joining each list with commas, and unmarshal by splitting on
commas.  Strings are modelled as rune lists (`List Char`), so that Go's
`strings.Join(v, ",")` is `List.intercalate [',']` and `strings.Split(s, ",")`
is `List.splitOn ','` (in particular the empty string splits into `[""]`,
as in Go).  A JSON object is modelled as an association list of its fields;
the JSON string layer, which round-trips string maps, is left abstract. -/

/-- A Go string as a list of runes. -/
abbrev GoStr := List Char

/-- Embeds `commaSeperatedValues.MarshalJSON`: the list is marshalled as the
single comma-joined string of its elements (`strings.Join(c, ",")`). -/
def commaSeperatedValuesMarshal (c : List GoStr) : GoStr :=
  List.intercalate [','] c

/-- Embeds `commaSeperatedValues.UnmarshalJSON`: the string is split on every
comma (`strings.Split(s, ",")`). -/
def commaSeperatedValuesUnmarshal (s : GoStr) : List GoStr :=
  s.splitOn ','

/-- Embeds `functionURLHeaders.MarshalJSON`: each header's value list becomes
one comma-joined JSON string field. -/
def functionURLHeadersMarshal (f : List (GoStr × List GoStr)) : List (GoStr × GoStr) :=
  f.map fun kv => (kv.1, commaSeperatedValuesMarshal kv.2)

/-- Embeds `functionURLHeaders.UnmarshalJSON`: each JSON string field is split
on commas into the header's value list. -/
def functionURLHeadersUnmarshal (m : List (GoStr × GoStr)) : List (GoStr × List GoStr) :=
  m.map fun kv => (kv.1, commaSeperatedValuesUnmarshal kv.2)

/-- Embeds `functionURLValues.MarshalJSON`, identical to the headers codec. -/
def functionURLValuesMarshal (f : List (GoStr × List GoStr)) : List (GoStr × GoStr) :=
  f.map fun kv => (kv.1, commaSeperatedValuesMarshal kv.2)

/-- Embeds `functionURLValues.UnmarshalJSON`, identical to the headers codec. -/
def functionURLValuesUnmarshal (m : List (GoStr × GoStr)) : List (GoStr × List GoStr) :=
  m.map fun kv => (kv.1, commaSeperatedValuesUnmarshal kv.2)

/-- Splitting the comma-join of a non-empty, comma-free list of strings gives
the list back. -/
lemma unmarshal_marshal_value (v : List GoStr) (hne : v ≠ [])
    (hnc : ∀ x ∈ v, ',' ∉ x) :
    commaSeperatedValuesUnmarshal (commaSeperatedValuesMarshal v) = v :=
  List.splitOn_intercalate v ',' hnc hne

/-- Mapping the per-value round trip over an association list is the
identity when every value list is non-empty and comma-free. -/
lemma unmarshal_marshal_map (f : List (GoStr × List GoStr))
    (hne : ∀ kv ∈ f, kv.2 ≠ []) (hnc : ∀ kv ∈ f, ∀ x ∈ kv.2, ',' ∉ x) :
    ((f.map fun kv => (kv.1, commaSeperatedValuesMarshal kv.2)).map
      fun kv => (kv.1, commaSeperatedValuesUnmarshal kv.2)) = f := by
  induction f with
  | nil => rfl
  | cons kv rest ih =>
    simp only [List.map_cons]
    rw [unmarshal_marshal_value kv.2 (hne kv (List.mem_cons_self _ _))
      (hnc kv (List.mem_cons_self _ _))]
    rw [ih (fun q hq => hne q (List.mem_cons_of_mem _ hq))
      (fun q hq => hnc q (List.mem_cons_of_mem _ hq))]

/-- C10: for every headers map and every query-parameter map whose value
lists are non-empty and whose elements contain no comma, unmarshalling the
marshalled form restores the original map; and the marshalled JSON object
maps each name to the single comma-joined string of its values. -/
theorem headers_values_roundtrip (f : List (GoStr × List GoStr))
    (hne : ∀ kv ∈ f, kv.2 ≠ []) (hnc : ∀ kv ∈ f, ∀ x ∈ kv.2, ',' ∉ x) :
    functionURLHeadersUnmarshal (functionURLHeadersMarshal f) = f ∧
    functionURLValuesUnmarshal (functionURLValuesMarshal f) = f ∧
    functionURLHeadersMarshal f =
      f.map fun kv => (kv.1, List.intercalate [','] kv.2) := by
  exact ⟨unmarshal_marshal_map f hne hnc, unmarshal_marshal_map f hne hnc, rfl⟩

/-- C10 witness: a concrete two-entry map with comma-free, non-empty value
lists satisfies the hypotheses and round-trips. -/
theorem headers_values_roundtrip_witness :
    (∀ kv ∈ ([(['A'], [['a'], ['b']]), (['B'], [['x', 'y']])] :
        List (GoStr × List GoStr)), kv.2 ≠ []) ∧
    (∀ kv ∈ ([(['A'], [['a'], ['b']]), (['B'], [['x', 'y']])] :
        List (GoStr × List GoStr)), ∀ x ∈ kv.2, ',' ∉ x) ∧
    (functionURLHeadersUnmarshal (functionURLHeadersMarshal
        [(['A'], [['a'], ['b']]), (['B'], [['x', 'y']])]) =
      [(['A'], [['a'], ['b']]), (['B'], [['x', 'y']])] ∧
     functionURLValuesUnmarshal (functionURLValuesMarshal
        [(['A'], [['a'], ['b']]), (['B'], [['x', 'y']])]) =
      [(['A'], [['a'], ['b']]), (['B'], [['x', 'y']])] ∧
     functionURLHeadersMarshal [(['A'], [['a'], ['b']]), (['B'], [['x', 'y']])] =
      ([(['A'], [['a'], ['b']]), (['B'], [['x', 'y']])] :
        List (GoStr × List GoStr)).map fun kv => (kv.1, List.intercalate [','] kv.2)) :=
  ⟨by decide, by decide,
    headers_values_roundtrip [(['A'], [['a'], ['b']]), (['B'], [['x', 'y']])]
      (by decide) (by decide)⟩

end Events
